import Mathlib

/-!
Verification of the transfer statement generator in
`src/init_scripts/transfers.py` (function `sync_transfers`).

The Python function reads the rows of the legacy `gebruiker` table (already
ordered by the database), prints one cleanup DELETE statement, and then for
each qualifying row prints one `insert into transfer(...)` statement.  We
embed the function shallowly: each printed line becomes a structured value
of type `OutLine`, and `sync_transfers` becomes a pure function from the
fetched row list to the list of emitted lines.

Modelling choices:
* A row is the tuple of positions the code reads: `result[0]` (id),
  `result[3]` (account label), `result[5]` (balance), `result[6]` (fine).
* Python strings are modelled as `List Char`; `result[3][1:]` is
  `List.drop 1`, `str.startswith` is the `startswith` function below.
* `int(<string>)` is modelled by `pyInt`: strip surrounding whitespace,
  optional sign, then a nonempty digit sequence allowing single
  underscores between digits, base 10.  (Unicode digits and exotic
  whitespace accepted by CPython are out of scope; no label in play uses
  them.)
* `balance` and `fine` are exact decimal amounts, modelled as `ℚ`.
  `int(<real value>)` truncates toward zero, modelled by `pyIntOfRat`.
-/

/-- Value of a decimal digit character. -/
def digitVal (c : Char) : Nat := c.toNat - '0'.toNat

/-- Continue parsing a Python integer literal after at least one digit has
been read into `acc`.  A single underscore is permitted between two digits
(CPython grammar `digit (["_"] digit)*`). -/
def pyDigitsCore (acc : Nat) : List Char → Option Nat
  | [] => some acc
  | '_' :: c :: cs =>
      if c.isDigit then pyDigitsCore (10 * acc + digitVal c) cs else none
  | c :: cs =>
      if c.isDigit then pyDigitsCore (10 * acc + digitVal c) cs else none

/-- Parse a nonempty unsigned digit sequence (with optional single
underscores between digits), as accepted by Python `int`. -/
def pyUnsigned : List Char → Option Nat
  | [] => none
  | c :: cs => if c.isDigit then pyDigitsCore (digitVal c) cs else none

/-- Strip leading and trailing whitespace, as Python `int` does on its
string argument. -/
def pyTrim (l : List Char) : List Char :=
  ((l.dropWhile Char.isWhitespace).reverse.dropWhile Char.isWhitespace).reverse

/-- Model of Python `int(s)` for a string `s`: `some v` when the call
succeeds with value `v`, `none` when it raises (the `try ... except:
continue` path of the code). -/
def pyInt (l : List Char) : Option Int :=
  match pyTrim l with
  | '+' :: rest => (pyUnsigned rest).map Int.ofNat
  | '-' :: rest => (pyUnsigned rest).map (fun n => -(n : Int))
  | rest => (pyUnsigned rest).map Int.ofNat

/-- Model of Python `int(x)` for a real value `x`: truncation toward zero
(floor for non-negative arguments, ceiling for negative ones). -/
def pyIntOfRat (q : ℚ) : Int := if 0 ≤ q then ⌊q⌋ else ⌈q⌉

/-- Model of Python `s.startswith(p)` on `List Char` strings. -/
def startswith : List Char → List Char → Bool
  | _, [] => true
  | [], _ :: _ => false
  | a :: as, b :: bs => a == b && startswith as bs

/-- The sentinel account-number literal excluded at line 17 of
`transfers.py`. -/
def sentinel : List Char := "OUDESANNEVANDERLINDEN".data

/-- The fixed batch timestamp interpolated into every emitted statement
(`createdAt` and `updatedAt`, and the cleanup DELETE condition). -/
def batchTimestamp : List Char := "2022-07-01 00:00:00.000000".data

/-- The constant description literal of every emitted insert statement. -/
def transferDescription : List Char := "Initial transfer from SuSOS".data

/-- The counterparty reference interpolated into an emitted insert
statement: either the correlated subquery
`FROM gewis_user AS g WHERE g.gewisId = <account_number>` (carrying the raw
account-number text the code interpolates), or
`FROM user AS u WHERE u.id = <id>` (carrying the row id). -/
inductive Party
  | gewisLookup (accountNumber : List Char)
  | userLookup (userId : Int)
deriving DecidableEq

/-- The variable fields of one emitted `insert into transfer(...)`
statement; `version`, the timestamps and the description are the constants
above. -/
structure InsertStmt where
  fromId : Option Party
  toId : Option Party
  amount : Int
deriving DecidableEq

/-- One printed output line: the cleanup DELETE (line 5 of `transfers.py`)
or an insert statement (lines 24, 27, 30, 33). -/
inductive OutLine
  | deleteCleanup
  | insert (s : InsertStmt)
deriving DecidableEq

/-- The fields of a fetched `gebruiker` row that the code reads:
`result[0]`, `result[3]`, `result[5]`, `result[6]`. -/
structure Row where
  id : Int
  label : List Char
  balance : ℚ
  fine : ℚ

/-- Line 21 of `transfers.py`: `balance = int((balance - fine)*100)`,
the net amount in cents, truncated toward zero. -/
def netCents (r : Row) : Int := pyIntOfRat ((r.balance - r.fine) * 100)

/-- The loop body of `sync_transfers` (lines 10-33 of `transfers.py`) for
one row: the list of insert lines it prints (empty on any `continue` and
when no branch matches). -/
def processRow (r : Row) : List OutLine :=
  match pyInt (r.label.drop 1) with
  | none => []
  | some v =>
    if r.label.drop 1 = sentinel ∨ (v < 1000 ∧ startswith r.label ['g'] = true) then []
    else if startswith r.label ['g'] = true then
      if 0 ≤ netCents r then
        [OutLine.insert ⟨none, some (Party.gewisLookup (r.label.drop 1)), netCents r⟩]
      else
        [OutLine.insert ⟨some (Party.gewisLookup (r.label.drop 1)), none, -netCents r⟩]
    else if startswith r.label ['e'] = true then
      if 0 ≤ netCents r then
        [OutLine.insert ⟨none, some (Party.userLookup r.id), netCents r⟩]
      else
        [OutLine.insert ⟨some (Party.userLookup r.id), none, -netCents r⟩]
    else []

/-- The whole generator: the cleanup DELETE line followed by the lines of
each row in fetch order. -/
def sync_transfers (results : List Row) : List OutLine :=
  OutLine.deleteCleanup :: results.flatMap processRow

/-- Truncation toward zero is the identity on integers. -/
theorem pyIntOfRat_intCast (n : ℤ) : pyIntOfRat (n : ℚ) = n := by
  unfold pyIntOfRat
  split
  · exact Int.floor_intCast n
  · exact Int.ceil_intCast n

/-- A string starting with `'e'` does not start with `'g'`. -/
theorem startswith_e_not_g (l : List Char) (h : startswith l ['e'] = true) :
    startswith l ['g'] = false := by
  match l with
  | [] => simp [startswith] at h
  | a :: t =>
    simp only [startswith, Bool.and_eq_true, beq_iff_eq] at h
    simp [startswith, h.1]

/-- A row whose account-number text does not parse prints nothing
(lines 13-16, the `try ... except ... continue`). -/
theorem processRow_skip_parse (r : Row) (h : pyInt (r.label.drop 1) = none) :
    processRow r = [] := by
  unfold processRow
  rw [h]

/-- A row matching the sentinel/low-id exclusion prints nothing
(lines 17-18). -/
theorem processRow_skip_excluded (r : Row) (v : ℤ)
    (hp : pyInt (r.label.drop 1) = some v)
    (h : r.label.drop 1 = sentinel ∨ (v < 1000 ∧ startswith r.label ['g'] = true)) :
    processRow r = [] := by
  unfold processRow
  rw [hp]
  exact if_pos h

/-- Shape of the output for a qualifying row whose label starts with `'g'`
(lines 22-27). -/
theorem processRow_g (r : Row) (v : ℤ)
    (hp : pyInt (r.label.drop 1) = some v)
    (hs : ¬(r.label.drop 1 = sentinel ∨ (v < 1000 ∧ startswith r.label ['g'] = true)))
    (hg : startswith r.label ['g'] = true) :
    processRow r =
      if 0 ≤ netCents r then
        [OutLine.insert ⟨none, some (Party.gewisLookup (r.label.drop 1)), netCents r⟩]
      else
        [OutLine.insert ⟨some (Party.gewisLookup (r.label.drop 1)), none, -netCents r⟩] := by
  unfold processRow
  rw [hp]
  dsimp only
  rw [if_neg hs, if_pos hg]

/-- Shape of the output for a qualifying row whose label starts with `'e'`
(lines 28-33). -/
theorem processRow_e (r : Row) (v : ℤ)
    (hp : pyInt (r.label.drop 1) = some v)
    (hs : ¬(r.label.drop 1 = sentinel ∨ (v < 1000 ∧ startswith r.label ['g'] = true)))
    (he : startswith r.label ['e'] = true) :
    processRow r =
      if 0 ≤ netCents r then
        [OutLine.insert ⟨none, some (Party.userLookup r.id), netCents r⟩]
      else
        [OutLine.insert ⟨some (Party.userLookup r.id), none, -netCents r⟩] := by
  unfold processRow
  rw [hp]
  dsimp only
  rw [if_neg hs, if_neg (by rw [startswith_e_not_g r.label he]; simp), if_pos he]

/-- A row that passes the filters but whose label starts with neither `'g'`
nor `'e'` prints nothing (the loop body has no further branch). -/
theorem processRow_other (r : Row) (v : ℤ)
    (hp : pyInt (r.label.drop 1) = some v)
    (hs : ¬(r.label.drop 1 = sentinel ∨ (v < 1000 ∧ startswith r.label ['g'] = true)))
    (hg : startswith r.label ['g'] = false)
    (he : startswith r.label ['e'] = false) :
    processRow r = [] := by
  unfold processRow
  rw [hp]
  dsimp only
  rw [if_neg hs, if_neg (by rw [hg]; simp), if_neg (by rw [he]; simp)]

example : pyInt "1500".data = some 1500 := by decide
example : pyInt "OUDESANNEVANDERLINDEN".data = none := by decide
example : pyInt "-5".data = some (-5) := by decide
example : pyInt "1_000".data = some 1000 := by decide
example : pyInt "".data = none := by decide
example : processRow ⟨42, "g500".data, 10, 5 / 2⟩ = [] := by decide
example : processRow ⟨3, "g42".data, 1, 0⟩ = [] := by decide
example : processRow ⟨9, "gOUDESANNEVANDERLINDEN".data, 1, 0⟩ = [] := by decide
example : netCents ⟨42, "g1500".data, 10, 5 / 2⟩ = 750 := by
  show pyIntOfRat (((10 : ℚ) - 5 / 2) * 100) = 750
  rw [show ((10 : ℚ) - 5 / 2) * 100 = ((750 : ℤ) : ℚ) by norm_num, pyIntOfRat_intCast]
example : netCents ⟨7, "e7".data, -5, 0⟩ = -500 := by
  show pyIntOfRat (((-5 : ℚ) - 0) * 100) = -500
  rw [show ((-5 : ℚ) - 0) * 100 = ((-500 : ℤ) : ℚ) by norm_num, pyIntOfRat_intCast]
example : pyIntOfRat (9 / 5 : ℚ) = 1 := by
  unfold pyIntOfRat
  rw [if_pos (by norm_num)]
  rw [Int.floor_eq_iff] <;> norm_num
example : round (9 / 5 : ℚ) = 2 := by
  rw [round_eq, Int.floor_eq_iff] <;> norm_num

/-- C1 (counterexample): the row `(id=1, label="e1", balance=0.018 €,
fine=0)` qualifies and is emitted with amount 1 (truncation of 1.8 cents),
whereas rounding `(balance - fine) * 100` to the nearest integer gives 2:
the emitted amount is not the rounded net amount. -/
theorem truncation_not_rounding_counterexample :
    processRow ⟨1, "e1".data, 9 / 500, 0⟩ =
      [OutLine.insert ⟨none, some (Party.userLookup 1), 1⟩] ∧
    ¬((1 : ℤ) = |round ((((9 : ℚ) / 500) - 0) * 100)|) := by
  have hnet : netCents ⟨1, "e1".data, 9 / 500, 0⟩ = 1 := by
    show pyIntOfRat ((((9 : ℚ) / 500) - 0) * 100) = 1
    rw [show (((9 : ℚ) / 500) - 0) * 100 = 9 / 5 by norm_num]
    unfold pyIntOfRat
    rw [if_pos (by norm_num)]
    rw [Int.floor_eq_iff] <;> norm_num
  constructor
  · rw [processRow_e ⟨1, "e1".data, 9 / 500, 0⟩ 1 (by decide) (by decide) (by decide)]
    rw [hnet]
    decide
  · rw [show (((9 : ℚ) / 500) - 0) * 100 = 9 / 5 by norm_num]
    rw [show round ((9 : ℚ) / 5) = 2 by rw [round_eq, Int.floor_eq_iff] <;> norm_num]
    decide

/-- C1 (amended): for every qualifying row (suffix parses as an integer,
not excluded by the sentinel/low-id filter, type tag g or e), the amount in
the single emitted insert statement equals `int((balance - fine) * 100)` in
absolute value, i.e. the net amount truncated toward zero, not rounded to
the nearest integer. -/
theorem qualifying_amount_is_truncated_net (r : Row) (v : ℤ)
    (hp : pyInt (r.label.drop 1) = some v)
    (hs : ¬(r.label.drop 1 = sentinel ∨ (v < 1000 ∧ startswith r.label ['g'] = true)))
    (ht : startswith r.label ['g'] = true ∨ startswith r.label ['e'] = true) :
    ∃ s : InsertStmt, processRow r = [OutLine.insert s] ∧ s.amount = |netCents r| := by
  by_cases hg : startswith r.label ['g'] = true
  · rw [processRow_g r v hp hs hg]
    by_cases h0 : 0 ≤ netCents r
    · rw [if_pos h0]
      exact ⟨_, rfl, (abs_of_nonneg h0).symm⟩
    · rw [if_neg h0]
      exact ⟨_, rfl, (abs_of_neg (lt_of_not_ge h0)).symm⟩
  · have he : startswith r.label ['e'] = true := ht.resolve_left hg
    rw [processRow_e r v hp hs he]
    by_cases h0 : 0 ≤ netCents r
    · rw [if_pos h0]
      exact ⟨_, rfl, (abs_of_nonneg h0).symm⟩
    · rw [if_neg h0]
      exact ⟨_, rfl, (abs_of_neg (lt_of_not_ge h0)).symm⟩

/-- Witness for C1 (amended) at the row `(id=7, label="e7", balance=-5,
fine=0)`. -/
theorem qualifying_amount_is_truncated_net_witness :
    (pyInt (("e7".data : List Char).drop 1) = some 7) ∧
    (¬(("e7".data : List Char).drop 1 = sentinel ∨
        ((7 : ℤ) < 1000 ∧ startswith "e7".data ['g'] = true))) ∧
    (startswith "e7".data ['g'] = true ∨ startswith "e7".data ['e'] = true) ∧
    ∃ s : InsertStmt, processRow ⟨7, "e7".data, -5, 0⟩ = [OutLine.insert s] ∧
      s.amount = |netCents ⟨7, "e7".data, -5, 0⟩| :=
  ⟨by decide, by decide, by decide,
    qualifying_amount_is_truncated_net ⟨7, "e7".data, -5, 0⟩ 7 (by decide) (by decide)
      (by decide)⟩

/-- C2 (counterexample): the row `(id=42, label="g500", balance=10,
fine=2.5)` is skipped by the low-id filter (500 < 1000 with tag g), so no
statement at all is emitted for it. -/
theorem g500_row_emits_nothing : processRow ⟨42, "g500".data, 10, 5 / 2⟩ = [] := by
  decide

/-- C2 (amended): the row of the claim is skipped because its account
number 500 is below 1000 with type tag g; for an account number past the
low-id filter, for example `(id=42, label="g1500", balance=10, fine=2.5)`,
the generator emits one statement with `fromId` NULL, `toId` resolved by
looking up `gewisId` 1500, and amount 750. -/
theorem g1500_row_statement :
    processRow ⟨42, "g1500".data, 10, 5 / 2⟩ =
      [OutLine.insert ⟨none, some (Party.gewisLookup "1500".data), 750⟩] := by
  have hnet : netCents ⟨42, "g1500".data, 10, 5 / 2⟩ = 750 := by
    show pyIntOfRat (((10 : ℚ) - 5 / 2) * 100) = 750
    rw [show ((10 : ℚ) - 5 / 2) * 100 = ((750 : ℤ) : ℚ) by norm_num, pyIntOfRat_intCast]
  rw [processRow_g ⟨42, "g1500".data, 10, 5 / 2⟩ 1500 (by decide) (by decide) (by decide)]
  rw [hnet]
  decide

/-- C3: a row whose account-number suffix equals the sentinel literal, or
whose suffix parses to an integer below 1000 while the label starts with
g, produces no statement. -/
theorem excluded_rows_emit_nothing (r : Row)
    (h : r.label.drop 1 = sentinel ∨
      ∃ v : ℤ, pyInt (r.label.drop 1) = some v ∧ v < 1000 ∧
        startswith r.label ['g'] = true) :
    processRow r = [] := by
  rcases h with hsent | ⟨v, hp, hv, hg⟩
  · have hnone : pyInt (r.label.drop 1) = none := by
      rw [hsent]
      decide
    exact processRow_skip_parse r hnone
  · exact processRow_skip_excluded r v hp (Or.inr ⟨hv, hg⟩)

/-- Witness for C3 at the sentinel row `(id=9,
label="gOUDESANNEVANDERLINDEN", balance=1, fine=0)`. -/
theorem excluded_rows_emit_nothing_witness :
    (("gOUDESANNEVANDERLINDEN".data : List Char).drop 1 = sentinel) ∧
    processRow ⟨9, "gOUDESANNEVANDERLINDEN".data, 1, 0⟩ = [] :=
  ⟨by decide,
    excluded_rows_emit_nothing ⟨9, "gOUDESANNEVANDERLINDEN".data, 1, 0⟩
      (Or.inl (by decide))⟩

/-- C4: a row whose account-number suffix does not parse as an integer
emits no line, raises no error, and the surrounding rows are processed as
if the row were absent. -/
theorem parse_failure_row_skipped (pre post : List Row) (r : Row)
    (h : pyInt (r.label.drop 1) = none) :
    processRow r = [] ∧
    sync_transfers (pre ++ r :: post) = sync_transfers (pre ++ post) := by
  have h0 := processRow_skip_parse r h
  refine ⟨h0, ?_⟩
  unfold sync_transfers
  rw [List.flatMap_append, List.flatMap_append, List.flatMap_cons, h0, List.nil_append]

/-- Witness for C4: the malformed row `(id=1, label="gABC", balance=1,
fine=0)` inserted between two well-formed rows. -/
theorem parse_failure_row_skipped_witness :
    (pyInt (("gABC".data : List Char).drop 1) = none) ∧
    (processRow ⟨1, "gABC".data, 1, 0⟩ = [] ∧
      sync_transfers
          ([⟨2, "g2000".data, 1, 0⟩] ++ ⟨1, "gABC".data, 1, 0⟩ :: [⟨3, "e3".data, 1, 0⟩]) =
        sync_transfers ([⟨2, "g2000".data, 1, 0⟩] ++ [⟨3, "e3".data, 1, 0⟩])) :=
  ⟨by decide,
    parse_failure_row_skipped [⟨2, "g2000".data, 1, 0⟩] [⟨3, "e3".data, 1, 0⟩]
      ⟨1, "gABC".data, 1, 0⟩ (by decide)⟩

/-- The loop body never prints the cleanup DELETE line. -/
theorem deleteCleanup_not_mem_processRow (r : Row) :
    OutLine.deleteCleanup ∉ processRow r := by
  unfold processRow
  cases hp : pyInt (r.label.drop 1) with
  | none => simp
  | some v =>
    dsimp only
    split
    · simp
    · split
      · split <;> simp
      · split
        · split <;> simp
        · simp

/-- C5: for every input list of rows, including the empty one, the cleanup
DELETE line is the first emitted line and occurs exactly once in the
output, so no insert statement ever precedes it. -/
theorem cleanup_emitted_once_first (rows : List Row) :
    (sync_transfers rows).head? = some OutLine.deleteCleanup ∧
    (sync_transfers rows).count OutLine.deleteCleanup = 1 := by
  constructor
  · rfl
  · unfold sync_transfers
    rw [List.count_cons_self]
    have hnm : OutLine.deleteCleanup ∉ rows.flatMap processRow := by
      intro hmem
      rw [List.mem_flatMap] at hmem
      obtain ⟨r, _, hr⟩ := hmem
      exact deleteCleanup_not_mem_processRow r hr
    rw [List.count_eq_zero.mpr hnm]

/-- C6: for every qualifying row exactly one of `fromId`/`toId` is set:
when the truncated net cents amount is non-negative the counterparty goes
to `toId` with `fromId` NULL and the amount is the net amount, and when it
is negative the amount is negated and the counterparty goes to `fromId`
with `toId` NULL. -/
theorem sign_determines_direction (r : Row) (v : ℤ)
    (hp : pyInt (r.label.drop 1) = some v)
    (hs : ¬(r.label.drop 1 = sentinel ∨ (v < 1000 ∧ startswith r.label ['g'] = true)))
    (ht : startswith r.label ['g'] = true ∨ startswith r.label ['e'] = true) :
    ∃ s : InsertStmt, processRow r = [OutLine.insert s] ∧
      (0 ≤ netCents r →
        s.fromId = none ∧ s.toId ≠ none ∧ s.amount = netCents r) ∧
      (netCents r < 0 →
        s.toId = none ∧ s.fromId ≠ none ∧ s.amount = -netCents r) := by
  by_cases hg : startswith r.label ['g'] = true
  · rw [processRow_g r v hp hs hg]
    by_cases h0 : 0 ≤ netCents r
    · rw [if_pos h0]
      exact ⟨_, rfl, fun _ => ⟨rfl, by simp, rfl⟩,
        fun hlt => absurd hlt (not_lt.mpr h0)⟩
    · rw [if_neg h0]
      exact ⟨_, rfl, fun hle => absurd hle h0, fun _ => ⟨rfl, by simp, rfl⟩⟩
  · have he : startswith r.label ['e'] = true := ht.resolve_left hg
    rw [processRow_e r v hp hs he]
    by_cases h0 : 0 ≤ netCents r
    · rw [if_pos h0]
      exact ⟨_, rfl, fun _ => ⟨rfl, by simp, rfl⟩,
        fun hlt => absurd hlt (not_lt.mpr h0)⟩
    · rw [if_neg h0]
      exact ⟨_, rfl, fun hle => absurd hle h0, fun _ => ⟨rfl, by simp, rfl⟩⟩

/-- Witness for C6 at the row `(id=7, label="e7", balance=-5, fine=0)`. -/
theorem sign_determines_direction_witness :
    (pyInt (("e7".data : List Char).drop 1) = some 7) ∧
    ∃ s : InsertStmt, processRow ⟨7, "e7".data, -5, 0⟩ = [OutLine.insert s] ∧
      (0 ≤ netCents ⟨7, "e7".data, -5, 0⟩ →
        s.fromId = none ∧ s.toId ≠ none ∧ s.amount = netCents ⟨7, "e7".data, -5, 0⟩) ∧
      (netCents ⟨7, "e7".data, -5, 0⟩ < 0 →
        s.toId = none ∧ s.fromId ≠ none ∧ s.amount = -netCents ⟨7, "e7".data, -5, 0⟩) :=
  ⟨by decide,
    sign_determines_direction ⟨7, "e7".data, -5, 0⟩ 7 (by decide) (by decide) (by decide)⟩

/-- The amount of any insert line printed by the loop body is
non-negative. -/
theorem amount_nonneg_of_mem_processRow (r : Row) (s : InsertStmt)
    (h : OutLine.insert s ∈ processRow r) : 0 ≤ s.amount := by
  unfold processRow at h
  cases hp : pyInt (r.label.drop 1) with
  | none =>
    rw [hp] at h
    simp at h
  | some v =>
    rw [hp] at h
    dsimp only at h
    split at h
    · simp at h
    · split at h
      · split at h
        · next h0 =>
          simp at h
          rw [h]
          exact h0
        · next h0 =>
          simp at h
          rw [h]
          simpa using le_of_lt (lt_of_not_ge h0)
      · split at h
        · split at h
          · next h0 =>
            simp at h
            rw [h]
            exact h0
          · next h0 =>
            simp at h
            rw [h]
            simpa using le_of_lt (lt_of_not_ge h0)
        · simp at h

/-- C7: in every emitted insert statement, over all inputs, the amount
field is a non-negative integer. -/
theorem emitted_amounts_nonneg (rows : List Row) (s : InsertStmt)
    (h : OutLine.insert s ∈ sync_transfers rows) : 0 ≤ s.amount := by
  unfold sync_transfers at h
  rcases List.mem_cons.mp h with h1 | h2
  · exact absurd h1 (by simp)
  · rw [List.mem_flatMap] at h2
    obtain ⟨r, _, hr⟩ := h2
    exact amount_nonneg_of_mem_processRow r s hr

/-- The concrete output of the generator on the single row `(id=7,
label="e7", balance=-5, fine=0)`. -/
theorem e7_insert_mem :
    OutLine.insert ⟨some (Party.userLookup 7), none, 500⟩ ∈
      sync_transfers [⟨7, "e7".data, -5, 0⟩] := by
  have hnet : netCents ⟨7, "e7".data, -5, 0⟩ = -500 := by
    show pyIntOfRat (((-5 : ℚ) - 0) * 100) = -500
    rw [show ((-5 : ℚ) - 0) * 100 = ((-500 : ℤ) : ℚ) by norm_num, pyIntOfRat_intCast]
  unfold sync_transfers
  rw [List.flatMap_cons, List.flatMap_nil]
  rw [processRow_e ⟨7, "e7".data, -5, 0⟩ 7 (by decide) (by decide) (by decide)]
  rw [hnet]
  decide

/-- Witness for C7 on the single-row input above. -/
theorem emitted_amounts_nonneg_witness :
    (OutLine.insert ⟨some (Party.userLookup 7), none, 500⟩ ∈
      sync_transfers [⟨7, "e7".data, -5, 0⟩]) ∧
    (0 : ℤ) ≤ (⟨some (Party.userLookup 7), none, 500⟩ : InsertStmt).amount :=
  ⟨e7_insert_mem,
    emitted_amounts_nonneg [⟨7, "e7".data, -5, 0⟩]
      ⟨some (Party.userLookup 7), none, 500⟩ e7_insert_mem⟩

/-- C8: a row past the parse and exclusion filters resolves its
counterparty by the first character of its label: a g label yields a
lookup of a GEWIS user by the parsed account-number text, an e label
yields a direct reference to the row id, and any other first character
yields no statement. -/
theorem counterparty_resolution (r : Row) (v : ℤ)
    (hp : pyInt (r.label.drop 1) = some v)
    (hs : ¬(r.label.drop 1 = sentinel ∨ (v < 1000 ∧ startswith r.label ['g'] = true))) :
    (startswith r.label ['g'] = true →
      ∃ s : InsertStmt, processRow r = [OutLine.insert s] ∧
        (s.fromId = some (Party.gewisLookup (r.label.drop 1)) ∨
          s.toId = some (Party.gewisLookup (r.label.drop 1))) ∧
        pyInt (r.label.drop 1) = some v) ∧
    (startswith r.label ['e'] = true →
      ∃ s : InsertStmt, processRow r = [OutLine.insert s] ∧
        (s.fromId = some (Party.userLookup r.id) ∨
          s.toId = some (Party.userLookup r.id))) ∧
    (startswith r.label ['g'] = false ∧ startswith r.label ['e'] = false →
      processRow r = []) := by
  refine ⟨fun hg => ?_, fun he => ?_, fun ⟨hg, he⟩ => processRow_other r v hp hs hg he⟩
  · rw [processRow_g r v hp hs hg]
    by_cases h0 : 0 ≤ netCents r
    · rw [if_pos h0]
      exact ⟨_, rfl, Or.inr rfl, hp⟩
    · rw [if_neg h0]
      exact ⟨_, rfl, Or.inl rfl, hp⟩
  · rw [processRow_e r v hp hs he]
    by_cases h0 : 0 ≤ netCents r
    · rw [if_pos h0]
      exact ⟨_, rfl, Or.inr rfl⟩
    · rw [if_neg h0]
      exact ⟨_, rfl, Or.inl rfl⟩

/-- Witness for C8 at the row `(id=42, label="g1500", balance=10,
fine=2.5)`. -/
theorem counterparty_resolution_witness :
    (pyInt (("g1500".data : List Char).drop 1) = some 1500) ∧
    ((startswith ("g1500".data : List Char) ['g'] = true →
      ∃ s : InsertStmt, processRow ⟨42, "g1500".data, 10, 5 / 2⟩ = [OutLine.insert s] ∧
        (s.fromId = some (Party.gewisLookup (("g1500".data : List Char).drop 1)) ∨
          s.toId = some (Party.gewisLookup (("g1500".data : List Char).drop 1))) ∧
        pyInt (("g1500".data : List Char).drop 1) = some 1500) ∧
    (startswith ("g1500".data : List Char) ['e'] = true →
      ∃ s : InsertStmt, processRow ⟨42, "g1500".data, 10, 5 / 2⟩ = [OutLine.insert s] ∧
        (s.fromId = some (Party.userLookup 42) ∨
          s.toId = some (Party.userLookup 42))) ∧
    (startswith ("g1500".data : List Char) ['g'] = false ∧
        startswith ("g1500".data : List Char) ['e'] = false →
      processRow ⟨42, "g1500".data, 10, 5 / 2⟩ = [])) :=
  ⟨by decide,
    counterparty_resolution ⟨42, "g1500".data, 10, 5 / 2⟩ 1500 (by decide) (by decide)⟩

/-- The loop body of `sync_transfers` with the comparison
`account_number == "OUDESANNEVANDERLINDEN"` removed from line 17, the
rest verbatim. -/
def processRow_noSentinel (r : Row) : List OutLine :=
  match pyInt (r.label.drop 1) with
  | none => []
  | some v =>
    if v < 1000 ∧ startswith r.label ['g'] = true then []
    else if startswith r.label ['g'] = true then
      if 0 ≤ netCents r then
        [OutLine.insert ⟨none, some (Party.gewisLookup (r.label.drop 1)), netCents r⟩]
      else
        [OutLine.insert ⟨some (Party.gewisLookup (r.label.drop 1)), none, -netCents r⟩]
    else if startswith r.label ['e'] = true then
      if 0 ≤ netCents r then
        [OutLine.insert ⟨none, some (Party.userLookup r.id), netCents r⟩]
      else
        [OutLine.insert ⟨some (Party.userLookup r.id), none, -netCents r⟩]
    else []

/-- The generator built from the loop body without the sentinel check. -/
def sync_transfers_noSentinel (results : List Row) : List OutLine :=
  OutLine.deleteCleanup :: results.flatMap processRow_noSentinel

/-- The sentinel literal fails integer parsing, so a row whose suffix
equals it is already skipped by the `try int(...)` filter. -/
theorem processRow_noSentinel_eq (r : Row) :
    processRow_noSentinel r = processRow r := by
  unfold processRow_noSentinel processRow
  cases hp : pyInt (r.label.drop 1) with
  | none => rfl
  | some v =>
    dsimp only
    have hns : ¬(r.label.drop 1 = sentinel) := by
      intro hsent
      rw [hsent] at hp
      rw [show pyInt sentinel = none from by decide] at hp
      exact Option.noConfusion hp
    by_cases hx : v < 1000 ∧ startswith r.label ['g'] = true
    · rw [if_pos hx, if_pos (Or.inr hx)]
    · rw [if_neg hx,
        if_neg (show ¬(r.label.drop 1 = sentinel ∨
            (v < 1000 ∧ startswith r.label ['g'] = true)) from
          by rintro (hl | hr); exacts [hns hl, hx hr])]

/-- C9: removing the sentinel equality comparison changes no output: any
suffix equal to the sentinel literal fails integer parsing, so the numeric
filter already skips those rows. -/
theorem sentinel_check_redundant (rows : List Row) :
    sync_transfers_noSentinel rows = sync_transfers rows := by
  unfold sync_transfers_noSentinel sync_transfers
  rw [show processRow_noSentinel = processRow from funext processRow_noSentinel_eq]

/-- C10: two rows with an e label, identical except for their
integer-parseable account-number suffix, produce identical output; the
low-number exclusion applies only to g labels and the e branch uses only
the id, balance and fine of the row. -/
theorem e_row_suffix_independent (i : Int) (b f : ℚ) (s1 s2 : List Char) (a c : ℤ)
    (h1 : pyInt s1 = some a) (h2 : pyInt s2 = some c) :
    processRow ⟨i, 'e' :: s1, b, f⟩ = processRow ⟨i, 'e' :: s2, b, f⟩ := by
  have hside : ∀ (s : List Char) (w : ℤ), pyInt s = some w →
      processRow ⟨i, 'e' :: s, b, f⟩ =
        if 0 ≤ pyIntOfRat ((b - f) * 100) then
          [OutLine.insert ⟨none, some (Party.userLookup i), pyIntOfRat ((b - f) * 100)⟩]
        else
          [OutLine.insert ⟨some (Party.userLookup i), none, -pyIntOfRat ((b - f) * 100)⟩] := by
    intro s w hw
    have hsent : ¬((('e' :: s : List Char).drop 1) = sentinel) := by
      intro heq
      rw [show (('e' :: s : List Char).drop 1) = s from rfl] at heq
      rw [heq] at hw
      rw [show pyInt sentinel = none from by decide] at hw
      exact Option.noConfusion hw
    have hg : startswith ('e' :: s) ['g'] = false := by
      simp [startswith]
    have he : startswith ('e' :: s) ['e'] = true := by
      simp [startswith]
    rw [processRow_e ⟨i, 'e' :: s, b, f⟩ w hw
      (by rintro (hl | hr); exacts [hsent hl, by rw [hg] at hr; exact Bool.noConfusion hr.2])
      he]
    rfl
  rw [hside s1 a h1, hside s2 c h2]

/-- Witness for C10 at two e rows whose suffixes are 7 and 12345. -/
theorem e_row_suffix_independent_witness :
    (pyInt "7".data = some 7) ∧ (pyInt "12345".data = some 12345) ∧
    processRow ⟨7, 'e' :: "7".data, -5, 0⟩ = processRow ⟨7, 'e' :: "12345".data, -5, 0⟩ :=
  ⟨by decide, by decide,
    e_row_suffix_independent 7 (-5) 0 "7".data "12345".data 7 12345 (by decide) (by decide)⟩
